import Mathlib

/-!
Shallow embedding of the `confirm` package (account e-mail confirmation
module) of the authboss repository, together with theorems settling the
specification claims about it.

The embedding follows `src/confirm/confirm.go`.  The host framework's
field-bag account representation (`authboss.Attributes`), its storage,
session and mail collaborators are modelled from the spec's interface
contracts (sections 3 and 6 of the spec), since their code lives outside
the provided source tree.
-/

set_option autoImplicit false

/-- Values storable in an account's field bag.  The confirm module only
reads and writes string- and boolean-valued fields. -/
inductive Val where
  | vstr (s : String)
  | vbool (b : Bool)
deriving DecidableEq, Repr

/-- Modelled from the spec: the host's dynamic field-bag account
representation (an untyped field map with string-keyed accessors). -/
abbrev Attributes := List (String × Val)

/-- Modelled from the spec: read a field from the field bag (first binding
of the key wins, keys are unique in a well-formed bag). -/
def aget (u : Attributes) (k : String) : Option Val :=
  match u with
  | [] => none
  | (k', v) :: rest => if k' = k then some v else aget rest k

/-- Modelled from the spec: write a field of the field bag, replacing the
existing binding of the key or appending a fresh one. -/
def aset (u : Attributes) (k : String) (v : Val) : Attributes :=
  match u with
  | [] => [(k, v)]
  | (k', v') :: rest => if k' = k then (k, v) :: rest else (k', v') :: aset rest k v

/-- Field-read failures of the accessor methods of the field bag. -/
inductive FieldReadError where
  | missing (k : String)
  | wrongType (k : String)
deriving DecidableEq, Repr

/-- Modelled from the spec: the `StringErr` accessor — returns the string
value of the field or a field-access error. -/
def stringErr (u : Attributes) (k : String) : Except FieldReadError String :=
  match aget u k with
  | none => .error (.missing k)
  | some (.vstr s) => .ok s
  | some _ => .error (.wrongType k)

/-- Modelled from the spec: the `BoolErr` accessor — returns the boolean
value of the field or a field-access error. -/
def boolErr (u : Attributes) (k : String) : Except FieldReadError Bool :=
  match aget u k with
  | none => .error (.missing k)
  | some (.vbool b) => .ok b
  | some _ => .error (.wrongType k)

/-- Storer attribute name for the confirmation token (source constant
`StoreConfirmToken`). -/
def StoreConfirmToken : String := "confirm_token"

/-- Storer attribute name for the confirmed flag (source constant
`StoreConfirmed`). -/
def StoreConfirmed : String := "confirmed"

/-- Form-value name of the token query parameter (source constant
`FormValueConfirm`). -/
def FormValueConfirm : String := "cnf"

/-- Modelled from the spec: the host framework's e-mail attribute name. -/
def StoreEmail : String := "email"

/-- Modelled from the spec: the host framework's session key under which
the primary identity key is stored on login. -/
def SessionKey : String := "uid"

/-- Token length used by the registration hook (source constant
`TokenLength`). -/
def TokenLength : Nat := 6

/-- Alphabet the token generator draws from (source constant
`letterBytes`). -/
def letterBytes : String := "abcdefghijklmnopqrstuvwxyzABCDEFGHIJKLMNOPQRSTUVWXYZ"

/-- Character list of the token alphabet. -/
def letterBytesList : List Char := letterBytes.data

/-- Bits consumed per candidate letter index (source constant
`letterIdxBits`). -/
def letterIdxBits : Nat := 6

/-- All-ones mask of `letterIdxBits` bits (source constant
`letterIdxMask`). -/
def letterIdxMask : Nat := 1 <<< letterIdxBits - 1

/-- Number of letter indices fitting in 63 random bits (source constant
`letterIdxMax`). -/
def letterIdxMax : Nat := 63 / letterIdxBits

/-- Acceptance test of the generator's rejection sampling, from the source
line `if idx := int(cache & letterIdxMask); idx < len(letterBytes)`. -/
def acceptedIdx (idx : Nat) : Bool := decide (idx < letterBytesList.length)

/-- Loop of `RandStringBytesMaskImpr`, fuelled.  State: `k` is the index of
the next random draw in the stream, `need` the number of characters still
to produce (the Go loop's `i` runs from `n-1` down to `0`, filling the
buffer back to front, so the freshly produced character is consed onto the
front of the accumulator), `cache` the remaining random bits of the current
draw, `remain` the number of 6-bit chunks left in `cache`. -/
def randLoopFuel (stream : Nat → Nat) :
    Nat → Nat → Nat → Nat → Nat → List Char → Option (List Char)
  | 0, _, _, _, _, _ => none
  | fuel + 1, k, need, cache, remain, acc =>
    if need = 0 then some acc
    else if remain = 0 then
      randLoopFuel stream fuel (k + 1) need (stream k % 2 ^ 63) letterIdxMax acc
    else if h : cache &&& letterIdxMask < letterBytesList.length then
      randLoopFuel stream fuel k (need - 1) (cache >>> letterIdxBits) (remain - 1)
        (letterBytesList.get ⟨cache &&& letterIdxMask, h⟩ :: acc)
    else
      randLoopFuel stream fuel k need (cache >>> letterIdxBits) (remain - 1) acc

/-- Source function `RandStringBytesMaskImpr`: generate a random string of
`n` characters.  The pseudo-random source `rand.Int63` is modelled as a
stream of draws (each reduced modulo `2^63`), and the unbounded loop is
fuelled; `none` means the fuel ran out before the buffer was filled. -/
def RandStringBytesMaskImpr (stream : Nat → Nat) (fuel n : Nat) : Option String :=
  (randLoopFuel stream fuel 1 n (stream 0 % 2 ^ 63) letterIdxMax []).map
    (fun l => String.mk l)

/-- Model of Go's `strings.ToUpper` restricted to the characters the module
actually handles: uppercase each character. -/
def toUpperStr (s : String) : String := String.mk (s.data.map Char.toUpper)

/-- Go-style truthiness of the stored-token comparison used by the storage
backend: the account's `confirm_token` field equals the string `t`
exactly. -/
def tokenMatches (t : String) (a : Attributes) : Bool :=
  decide (aget a StoreConfirmToken = some (Val.vstr t))

/-- Modelled from the spec: the `ConfirmUser` capability of the
`ConfirmStorer` interface — look an account up by exact match on the
stored (upper-cased) `confirm_token` field, `none` standing for the
`ErrUserNotFound` signal. -/
def confirmUser (db : List Attributes) (t : String) : Option Attributes :=
  db.find? (tokenMatches t)

/-- Modelled from the spec: `Context.SaveUser` — persist the in-context
account into the backend, keyed by the primary identity field `pid`
(records whose `pid` value equals the saved account's are overwritten). -/
def saveUser (db : List Attributes) (pid : String) (u : Attributes) : List Attributes :=
  db.map (fun a => if aget a pid = aget u pid then u else a)

/-- Modelled from the spec: the session storer's `Put`. -/
def sput (s : List (String × String)) (k v : String) : List (String × String) :=
  match s with
  | [] => [(k, v)]
  | (k', v') :: rest => if k' = k then (k, v) :: rest else (k', v') :: sput rest k v

/-- Configuration fields of the module read by the handlers: the primary
identity attribute name, the post-registration success path, and the
immediate-login policy flag. -/
structure Config where
  primaryID : String
  registerOKPath : String
  allowInsecureLoginAfterConfirm : Bool

/-- Mutable collaborator state visible to the confirmation handler: the
user-storage backend and the session store. -/
structure HState where
  db : List Attributes
  session : List (String × String)
deriving DecidableEq, Repr

/-- Terminal outcomes of the confirmation handler, mirroring its `return`
statements. -/
inductive Outcome where
  | clientDataErr (name : String)
  | errAndRedirect (location errMsg : String)
  | fieldErr (e : FieldReadError)
  | redirectOK (location msg : String)
deriving DecidableEq, Repr

/-- Storage and session operations the handler performs, in order. -/
inductive Effect where
  | lookupTok (token : String)
  | saveAcct (u : Attributes)
  | putSession (k v : String)
deriving DecidableEq, Repr

/-- Success flash message of the confirmation handler. -/
def confirmOKMsg : String := "You have successfully confirmed your account."

/-- Source function `confirmHandler`: redeem a confirmation token.  Returns
the outcome, the collaborator state after the request and the trace of
storage/session operations performed. -/
def confirmHandler (cfg : Config) (st : HState) (formToken : String) :
    Outcome × HState × List Effect :=
  if formToken.length = 0 then
    (.clientDataErr FormValueConfirm, st, [])
  else
    match confirmUser st.db (toUpperStr formToken) with
    | none =>
      (.errAndRedirect "/" "confirm: token not found", st,
       [.lookupTok (toUpperStr formToken)])
    | some user =>
      let u2 := aset (aset user StoreConfirmToken (.vstr "")) StoreConfirmed (.vbool true)
      let db' := saveUser st.db cfg.primaryID u2
      if cfg.allowInsecureLoginAfterConfirm then
        match stringErr u2 cfg.primaryID with
        | .error e =>
          (.fieldErr e, { st with db := db' },
           [.lookupTok (toUpperStr formToken), .saveAcct u2])
        | .ok key =>
          (.redirectOK cfg.registerOKPath confirmOKMsg,
           { db := db', session := sput st.session SessionKey key },
           [.lookupTok (toUpperStr formToken), .saveAcct u2, .putSession SessionKey key])
      else
        (.redirectOK cfg.registerOKPath confirmOKMsg, { st with db := db' },
         [.lookupTok (toUpperStr formToken), .saveAcct u2])

/-- Pipeline interrupts of the host framework used by this module. -/
inductive Interrupt where
  | interruptNone
  | accountNotConfirmed
deriving DecidableEq, Repr

/-- Source function `beforeGet` (the AuthGate callback): read the
`confirmed` boolean and either pass, interrupt, or surface the
field-access error (returning `InterruptNone` alongside it, as the source
does). -/
def beforeGet (u : Attributes) : Interrupt × Option FieldReadError :=
  match boolErr u StoreConfirmed with
  | .error e => (.interruptNone, some e)
  | .ok true => (.interruptNone, none)
  | .ok false => (.accountNotConfirmed, none)

/-- In-context account transformation performed by the registration hook
`afterRegister`: store the upper-cased token into `confirm_token`. -/
def afterRegisterUser (u : Attributes) (tok : String) : Attributes :=
  aset u StoreConfirmToken (.vstr (toUpperStr tok))

/-- In-context account transformation performed by the confirmation
handler on a found account: clear `confirm_token`, set `confirmed`. -/
def confirmedUser (u : Attributes) : Attributes :=
  aset (aset u StoreConfirmToken (.vstr "")) StoreConfirmed (.vbool true)

/-- Log lines produced by `confirmEmail`: a delivery failure (the mail
collaborator's error message, if any) is written to the log sink and
nothing else happens. -/
def confirmEmailLog (sendErr : Option String) : List String :=
  match sendErr with
  | none => []
  | some m => ["confirm: Failed to send e-mail: " ++ m]

/-- Results of the registration hook, mirroring its `return` statements. -/
inductive RegResult where
  | errUserMissing
  | errSave
  | errNoEmail (e : FieldReadError)
  | ok
deriving DecidableEq, Repr

/-- Source function `afterRegister` (the registration hook).  `user?` is
the in-context account (`nil` possible), `tok` the freshly generated token
(standing for `RandStringBytesMaskImpr TokenLength`), `saveOk` whether the
persistence call succeeds, and `sendErr` the mail collaborator's outcome.
Returns the hook result, the in-context account after the hook, and the
log lines written. -/
def afterRegister (user? : Option Attributes) (tok : String) (saveOk : Bool)
    (sendErr : Option String) : RegResult × Option Attributes × List String :=
  match user? with
  | none => (.errUserMissing, none, [])
  | some u =>
    let u' := afterRegisterUser u tok
    if saveOk then
      match stringErr u' StoreEmail with
      | .error e => (.errNoEmail e, some u', [])
      | .ok _email => (.ok, some u', confirmEmailLog sendErr)
    else (.errSave, some u', [])

/-- Account states reachable, within this subsystem, from a freshly
created account.  A fresh account has `confirmed = false` (the creation
default) and no outstanding token.  The registration hook fires only after
the host persists a newly created account, so its step carries the
creation-default guard `confirmed = false`; the confirmation handler only
transforms an account it found by exact match on a non-empty submitted
token, so its step requires the stored token to be that non-empty
string. -/
inductive Reachable : Attributes → Prop where
  | init (u : Attributes)
      (hc : aget u StoreConfirmed = some (.vbool false))
      (ht : aget u StoreConfirmToken = none ∨ aget u StoreConfirmToken = some (.vstr "")) :
      Reachable u
  | register (u : Attributes) (tok : String) (hu : Reachable u)
      (hc : aget u StoreConfirmed = some (.vbool false)) :
      Reachable (afterRegisterUser u tok)
  | confirm (u : Attributes) (t : String) (hu : Reachable u)
      (ht : aget u StoreConfirmToken = some (.vstr t)) (hne : t ≠ "") :
      Reachable (confirmedUser u)

/-- Two characters are case variants of one another when they agree up to
letter case. -/
def charCaseVar (a b : Char) : Prop := a.toUpper = b.toUpper

/-- Two strings are case variants when they agree character by character up
to letter case. -/
def CaseVariant (s t : String) : Prop := List.Forall₂ charCaseVar s.data t.data

/-! Helper lemmas about the field bag and the string model. -/

theorem aget_aset_same (u : Attributes) (k : String) (v : Val) :
    aget (aset u k v) k = some v := by
  induction u with
  | nil => simp [aget, aset]
  | cons p rest ih =>
    obtain ⟨k', v'⟩ := p
    by_cases h : k' = k
    · simp [aset, h, aget]
    · simp [aset, h, aget, ih]

theorem aget_aset_ne (u : Attributes) (k k' : String) (v : Val) (h : k ≠ k') :
    aget (aset u k v) k' = aget u k' := by
  induction u with
  | nil => simp [aget, aset, h]
  | cons p rest ih =>
    obtain ⟨k₀, v₀⟩ := p
    by_cases h0 : k₀ = k
    · subst h0
      simp [aset, aget, h]
    · simp [aset, h0, aget, ih]

theorem string_length_data (s : String) : s.length = s.data.length := rfl

theorem toUpperStr_data (s : String) : (toUpperStr s).data = s.data.map Char.toUpper := rfl

theorem toUpperStr_ne_empty {s : String} (h : s ≠ "") : toUpperStr s ≠ "" := by
  intro he
  apply h
  have hd : (toUpperStr s).data = [] := by rw [he]
  rw [toUpperStr_data] at hd
  exact String.ext (List.map_eq_nil_iff.mp hd)

theorem length_ne_zero_of_ne_empty {s : String} (h : s ≠ "") : s.length ≠ 0 := by
  intro h0
  apply h
  apply String.ext
  rw [string_length_data] at h0
  exact List.length_eq_zero.mp h0

theorem forall₂_map_toUpper {l₁ l₂ : List Char} (h : List.Forall₂ charCaseVar l₁ l₂) :
    l₁.map Char.toUpper = l₂.map Char.toUpper := by
  induction h with
  | nil => rfl
  | cons hab _ ih =>
    simp only [List.map_cons, ih, List.cons.injEq, and_true]
    exact hab

theorem caseVariant_toUpper {s t : String} (h : CaseVariant s t) :
    toUpperStr s = toUpperStr t := by
  apply String.ext
  rw [toUpperStr_data, toUpperStr_data]
  exact forall₂_map_toUpper h

theorem caseVariant_ne_empty {s t : String} (h : CaseVariant s t) (ht : t ≠ "") :
    s ≠ "" := by
  intro hs
  apply ht
  apply String.ext
  have hlen := h.length_eq
  rw [hs] at hlen
  exact (List.length_eq_zero.mp hlen.symm)

theorem aget_confirmedUser_confirmed (u : Attributes) :
    aget (confirmedUser u) StoreConfirmed = some (.vbool true) :=
  aget_aset_same _ _ _

theorem aget_confirmedUser_token (u : Attributes) :
    aget (confirmedUser u) StoreConfirmToken = some (.vstr "") := by
  unfold confirmedUser
  rw [aget_aset_ne _ _ _ _ (by decide), aget_aset_same]

theorem aget_confirmedUser_ne (u : Attributes) (k : String)
    (h3 : k ≠ StoreConfirmToken) (h4 : k ≠ StoreConfirmed) :
    aget (confirmedUser u) k = aget u k := by
  unfold confirmedUser
  rw [aget_aset_ne _ _ _ _ (Ne.symm h4), aget_aset_ne _ _ _ _ (Ne.symm h3)]

theorem confirmHandler_found (cfg : Config) (st : HState) (t : String)
    (user : Attributes) (k : String)
    (h0 : t ≠ "")
    (h1 : confirmUser st.db (toUpperStr t) = some user)
    (h2 : aget user cfg.primaryID = some (.vstr k))
    (h3 : cfg.primaryID ≠ StoreConfirmToken)
    (h4 : cfg.primaryID ≠ StoreConfirmed) :
    confirmHandler cfg st t =
      (.redirectOK cfg.registerOKPath confirmOKMsg,
       ⟨saveUser st.db cfg.primaryID (confirmedUser user),
        if cfg.allowInsecureLoginAfterConfirm then sput st.session SessionKey k
        else st.session⟩,
       [.lookupTok (toUpperStr t), .saveAcct (confirmedUser user)] ++
         (if cfg.allowInsecureLoginAfterConfirm then [.putSession SessionKey k]
          else [])) := by
  have hlen : ¬t.length = 0 := length_ne_zero_of_ne_empty h0
  have hpid : aget (confirmedUser user) cfg.primaryID = some (.vstr k) := by
    unfold confirmedUser
    rw [aget_aset_ne _ _ _ _ (Ne.symm h4), aget_aset_ne _ _ _ _ (Ne.symm h3)]
    exact h2
  have hstr : stringErr (confirmedUser user) cfg.primaryID = .ok k := by
    unfold stringErr
    rw [hpid]
  unfold confirmHandler
  rw [if_neg hlen, h1]
  have hcu :
      aset (aset user StoreConfirmToken (.vstr "")) StoreConfirmed (.vbool true) =
        confirmedUser user := rfl
  cases hAl : cfg.allowInsecureLoginAfterConfirm <;>
    simp only [hAl, hcu, hstr, Bool.false_eq_true, if_false, if_true, List.append_nil,
      ite_true, ite_false, List.cons_append, List.singleton_append, List.nil_append]

theorem confirmHandler_notFound (cfg : Config) (st : HState) (t : String)
    (h0 : t ≠ "")
    (h1 : confirmUser st.db (toUpperStr t) = none) :
    confirmHandler cfg st t =
      (.errAndRedirect "/" "confirm: token not found", st,
       [.lookupTok (toUpperStr t)]) := by
  unfold confirmHandler
  rw [if_neg (length_ne_zero_of_ne_empty h0), h1]

/-- C2: a successful redemption (non-empty token whose upper-cased value a
stored account's `confirm_token` field matches) sets the account's
`confirmed` field to `true`, clears its `confirm_token` field, persists the
updated account, and responds with a redirect to the configured
post-registration success path `RegisterOKPath`. -/
theorem C2_successful_redemption (cfg : Config) (st : HState) (t : String)
    (user : Attributes) (k : String)
    (h0 : t ≠ "")
    (h1 : confirmUser st.db (toUpperStr t) = some user)
    (h2 : aget user cfg.primaryID = some (.vstr k))
    (h3 : cfg.primaryID ≠ StoreConfirmToken)
    (h4 : cfg.primaryID ≠ StoreConfirmed) :
    (confirmHandler cfg st t).1 = .redirectOK cfg.registerOKPath confirmOKMsg ∧
    ∃ u', Effect.saveAcct u' ∈ (confirmHandler cfg st t).2.2 ∧
      aget u' StoreConfirmed = some (.vbool true) ∧
      aget u' StoreConfirmToken = some (.vstr "") ∧
      (confirmHandler cfg st t).2.1.db = saveUser st.db cfg.primaryID u' := by
  rw [confirmHandler_found cfg st t user k h0 h1 h2 h3 h4]
  refine ⟨rfl, confirmedUser user, ?_, aget_confirmedUser_confirmed user,
    aget_confirmedUser_token user, rfl⟩
  simp

/-- Closed witness for C2 on a one-account store. -/
theorem C2_witness :
    (("abc" : String) ≠ "" ∧
      confirmUser [[("confirm_token", Val.vstr "ABC"), ("id", Val.vstr "u1")]]
          (toUpperStr "abc") =
        some [("confirm_token", Val.vstr "ABC"), ("id", Val.vstr "u1")]) ∧
    ((confirmHandler
        { primaryID := "id", registerOKPath := "/regok",
          allowInsecureLoginAfterConfirm := false }
        ⟨[[("confirm_token", Val.vstr "ABC"), ("id", Val.vstr "u1")]], []⟩
        "abc").1 = .redirectOK "/regok" confirmOKMsg ∧
      ∃ u', Effect.saveAcct u' ∈ (confirmHandler
        { primaryID := "id", registerOKPath := "/regok",
          allowInsecureLoginAfterConfirm := false }
        ⟨[[("confirm_token", Val.vstr "ABC"), ("id", Val.vstr "u1")]], []⟩
        "abc").2.2 ∧
        aget u' StoreConfirmed = some (.vbool true) ∧
        aget u' StoreConfirmToken = some (.vstr "") ∧
        (confirmHandler
          { primaryID := "id", registerOKPath := "/regok",
            allowInsecureLoginAfterConfirm := false }
          ⟨[[("confirm_token", Val.vstr "ABC"), ("id", Val.vstr "u1")]], []⟩
          "abc").2.1.db =
          saveUser [[("confirm_token", Val.vstr "ABC"), ("id", Val.vstr "u1")]]
            "id" u') :=
  ⟨⟨by decide, by decide⟩,
    C2_successful_redemption
      { primaryID := "id", registerOKPath := "/regok",
        allowInsecureLoginAfterConfirm := false }
      ⟨[[("confirm_token", Val.vstr "ABC"), ("id", Val.vstr "u1")]], []⟩
      "abc" [("confirm_token", Val.vstr "ABC"), ("id", Val.vstr "u1")] "u1"
      (by decide) (by decide) (by decide) (by decide) (by decide)⟩

/-- C4: once a token has been successfully redeemed, redeeming it again
hits the not-found branch (redirect to the site root with a token-not-found
error) and leaves the collaborator state untouched, because the first
redemption cleared the matching account's `confirm_token` field and lookup
is by exact match on that stored field. -/
theorem C4_single_use (cfg : Config) (st : HState) (t : String)
    (user : Attributes) (k : String)
    (h0 : t ≠ "")
    (h1 : confirmUser st.db (toUpperStr t) = some user)
    (h2 : aget user cfg.primaryID = some (.vstr k))
    (h3 : cfg.primaryID ≠ StoreConfirmToken)
    (h4 : cfg.primaryID ≠ StoreConfirmed)
    (h5 : ∀ a ∈ st.db, tokenMatches (toUpperStr t) a = true → a = user) :
    confirmHandler cfg ((confirmHandler cfg st t).2.1) t =
      (.errAndRedirect "/" "confirm: token not found",
       (confirmHandler cfg st t).2.1, [.lookupTok (toUpperStr t)]) := by
  have hpid : aget (confirmedUser user) cfg.primaryID = some (.vstr k) := by
    rw [aget_confirmedUser_ne user _ h3 h4]
    exact h2
  rw [confirmHandler_found cfg st t user k h0 h1 h2 h3 h4]
  apply confirmHandler_notFound cfg _ t h0
  rw [confirmUser, List.find?_eq_none]
  intro a ha htm
  simp only [saveUser, List.mem_map] at ha
  obtain ⟨b, hb, hab⟩ := ha
  by_cases hcond : aget b cfg.primaryID = aget (confirmedUser user) cfg.primaryID
  · rw [if_pos hcond] at hab
    subst hab
    have hTok := of_decide_eq_true htm
    rw [aget_confirmedUser_token] at hTok
    have hTne : toUpperStr t ≠ "" := toUpperStr_ne_empty h0
    simp only [Option.some.injEq, Val.vstr.injEq] at hTok
    exact hTne hTok.symm
  · rw [if_neg hcond] at hab
    subst hab
    have hbu : b = user := h5 b hb htm
    apply hcond
    rw [hbu, hpid]
    exact h2

/-- Closed witness for C4 on a one-account store. -/
theorem C4_witness :
    confirmHandler
        { primaryID := "id", registerOKPath := "/regok",
          allowInsecureLoginAfterConfirm := false }
        ((confirmHandler
          { primaryID := "id", registerOKPath := "/regok",
            allowInsecureLoginAfterConfirm := false }
          ⟨[[("confirm_token", Val.vstr "ABC"), ("id", Val.vstr "u1")]], []⟩
          "abc").2.1) "abc" =
      (.errAndRedirect "/" "confirm: token not found",
       (confirmHandler
          { primaryID := "id", registerOKPath := "/regok",
            allowInsecureLoginAfterConfirm := false }
          ⟨[[("confirm_token", Val.vstr "ABC"), ("id", Val.vstr "u1")]], []⟩
          "abc").2.1, [.lookupTok (toUpperStr "abc")]) :=
  C4_single_use
    { primaryID := "id", registerOKPath := "/regok",
      allowInsecureLoginAfterConfirm := false }
    ⟨[[("confirm_token", Val.vstr "ABC"), ("id", Val.vstr "u1")]], []⟩
    "abc" [("confirm_token", Val.vstr "ABC"), ("id", Val.vstr "u1")] "u1"
    (by decide) (by decide) (by decide) (by decide) (by decide) (by decide)

/-- C7: on an empty token query parameter the confirmation handler fails
with a client-data error naming the `cnf` parameter, performing no storage
or session operation and leaving the collaborator state untouched. -/
theorem C7_empty_token (cfg : Config) (st : HState) :
    confirmHandler cfg st "" = (.clientDataErr FormValueConfirm, st, []) := rfl

/-- C8: the AuthGate callback is a no-op on a confirmed account, signals
the account-not-confirmed interrupt on an unconfirmed one, and surfaces the
field-access error (with no interrupt) when the `confirmed` field cannot be
read as a boolean. -/
theorem C8_auth_gate (u : Attributes) :
    (aget u StoreConfirmed = some (.vbool true) →
      beforeGet u = (.interruptNone, none)) ∧
    (aget u StoreConfirmed = some (.vbool false) →
      beforeGet u = (.accountNotConfirmed, none)) ∧
    (∀ e, boolErr u StoreConfirmed = .error e →
      beforeGet u = (.interruptNone, some e)) := by
  refine ⟨?_, ?_, ?_⟩
  · intro h
    simp [beforeGet, boolErr, h]
  · intro h
    simp [beforeGet, boolErr, h]
  · intro e h
    simp [beforeGet, h]

/-- Closed witness for C8 covering the three branches. -/
theorem C8_witness :
    beforeGet [("confirmed", Val.vbool true)] = (.interruptNone, none) ∧
    beforeGet [("confirmed", Val.vbool false)] = (.accountNotConfirmed, none) ∧
    beforeGet [("confirmed", Val.vstr "x")] =
      (.interruptNone, some (.wrongType "confirmed")) :=
  ⟨(C8_auth_gate _).1 (by decide),
   (C8_auth_gate _).2.1 (by decide),
   (C8_auth_gate _).2.2 _ rfl⟩

/-- C3: in every account state reachable from a freshly created account
(confirmed false, no token) under the registration hook and the
confirmation handler's account transformation, `confirmed = true` implies
`confirm_token = ""`. -/
theorem C3_invariant : ∀ u : Attributes, Reachable u →
    aget u StoreConfirmed = some (.vbool true) →
    aget u StoreConfirmToken = some (.vstr "") := by
  intro u hr
  induction hr with
  | init u hcf ht =>
    intro hc
    rw [hcf] at hc
    simp at hc
  | register u tok hu hcf ih =>
    intro hc
    unfold afterRegisterUser at hc
    rw [aget_aset_ne _ _ _ _ (by decide), hcf] at hc
    simp at hc
  | confirm u t hu ht hne ih =>
    intro _
    exact aget_confirmedUser_token u

/-- Closed witness for C3 along the lifecycle create, register, confirm. -/
theorem C3_witness :
    aget (confirmedUser (afterRegisterUser [("confirmed", Val.vbool false)] "abc"))
        StoreConfirmed = some (.vbool true) ∧
    aget (confirmedUser (afterRegisterUser [("confirmed", Val.vbool false)] "abc"))
        StoreConfirmToken = some (.vstr "") :=
  ⟨by decide,
   C3_invariant _
     (Reachable.confirm _ "ABC"
       (Reachable.register _ "abc"
         (Reachable.init _ (by decide) (Or.inl (by decide)))
         (by decide))
       (by decide) (by decide))
     (by decide)⟩

/-- C9: a failing delivery collaborator never fails the registration hook —
for every outcome of the e-mail send, provided the account was present, the
token was persisted and the e-mail field was readable, the hook returns
success and the delivery error appears only in the log sink. -/
theorem C9_delivery_failure_swallowed (u : Attributes) (tok em : String)
    (sendErr : Option String)
    (hem : aget u StoreEmail = some (.vstr em)) :
    afterRegister (some u) tok true sendErr =
      (.ok, some (afterRegisterUser u tok), confirmEmailLog sendErr) := by
  have hse : stringErr (afterRegisterUser u tok) StoreEmail = .ok em := by
    unfold stringErr afterRegisterUser
    rw [aget_aset_ne _ _ _ _ (by decide), hem]
  unfold afterRegister
  simp [hse]

/-- Closed witness for C9 with a failing send. -/
theorem C9_witness :
    afterRegister (some [("email", Val.vstr "a@b.c")]) "tok" true (some "boom") =
      (.ok, some (afterRegisterUser [("email", Val.vstr "a@b.c")] "tok"),
       ["confirm: Failed to send e-mail: boom"]) :=
  C9_delivery_failure_swallowed [("email", Val.vstr "a@b.c")] "tok" "a@b.c"
    (some "boom") (by decide)

/-- C10: the registration hook writes only the `confirm_token` field of the
in-context account — every other field (in particular `confirmed`) is left
unchanged, and the hook's resulting in-context account is exactly the
original with the upper-cased token stored. -/
theorem C10_frame (u : Attributes) (tok : String) (k : String)
    (hk : k ≠ StoreConfirmToken) :
    aget (afterRegisterUser u tok) k = aget u k ∧
    aget (afterRegisterUser u tok) StoreConfirmed = aget u StoreConfirmed ∧
    (∀ (saveOk : Bool) (sendErr : Option String),
      (afterRegister (some u) tok saveOk sendErr).2.1 =
        some (afterRegisterUser u tok)) := by
  refine ⟨?_, ?_, ?_⟩
  · unfold afterRegisterUser
    exact aget_aset_ne _ _ _ _ (Ne.symm hk)
  · unfold afterRegisterUser
    exact aget_aset_ne _ _ _ _ (by decide)
  · intro saveOk sendErr
    cases saveOk with
    | false => simp [afterRegister]
    | true =>
      cases hse : stringErr (afterRegisterUser u tok) StoreEmail with
      | error e => simp [afterRegister, hse]
      | ok em => simp [afterRegister, hse]

/-- Closed witness for C10 at the e-mail field. -/
theorem C10_witness :
    ("email" : String) ≠ StoreConfirmToken ∧
    (aget (afterRegisterUser [("confirmed", Val.vbool false),
        ("email", Val.vstr "a@b.c")] "x") "email" =
      aget [("confirmed", Val.vbool false), ("email", Val.vstr "a@b.c")] "email" ∧
    aget (afterRegisterUser [("confirmed", Val.vbool false),
        ("email", Val.vstr "a@b.c")] "x") StoreConfirmed =
      aget [("confirmed", Val.vbool false), ("email", Val.vstr "a@b.c")]
        StoreConfirmed ∧
    (∀ (saveOk : Bool) (sendErr : Option String),
      (afterRegister (some [("confirmed", Val.vbool false),
        ("email", Val.vstr "a@b.c")]) "x" saveOk sendErr).2.1 =
        some (afterRegisterUser [("confirmed", Val.vbool false),
          ("email", Val.vstr "a@b.c")] "x"))) :=
  ⟨by decide,
   C10_frame [("confirmed", Val.vbool false), ("email", Val.vstr "a@b.c")] "x"
     "email" (by decide)⟩

instance : DecidableRel charCaseVar :=
  fun a b => inferInstanceAs (Decidable (a.toUpper = b.toUpper))

instance (s t : String) : Decidable (CaseVariant s t) :=
  inferInstanceAs (Decidable (List.Forall₂ charCaseVar s.data t.data))

/-- C6: the registration hook stores the upper-cased token, the handler
upper-cases the submitted parameter before lookup, and upper-casing agrees
on all case variants; hence submitting the delivered token in any letter
case produces the stored lookup key and the redemption succeeds. -/
theorem C6_case_roundtrip (cfg : Config) (sess : List (String × String))
    (u : Attributes) (t s k : String)
    (hcv : CaseVariant s t)
    (ht : t ≠ "")
    (h2 : aget u cfg.primaryID = some (.vstr k))
    (h3 : cfg.primaryID ≠ StoreConfirmToken)
    (h4 : cfg.primaryID ≠ StoreConfirmed) :
    aget (afterRegisterUser u t) StoreConfirmToken =
      some (.vstr (toUpperStr t)) ∧
    toUpperStr s = toUpperStr t ∧
    confirmUser [afterRegisterUser u t] (toUpperStr s) =
      some (afterRegisterUser u t) ∧
    (confirmHandler cfg ⟨[afterRegisterUser u t], sess⟩ s).1 =
      .redirectOK cfg.registerOKPath confirmOKMsg := by
  have hup := caseVariant_toUpper hcv
  have hs : s ≠ "" := caseVariant_ne_empty hcv ht
  have hstore : aget (afterRegisterUser u t) StoreConfirmToken =
      some (.vstr (toUpperStr t)) := by
    unfold afterRegisterUser
    exact aget_aset_same _ _ _
  have hmatch : tokenMatches (toUpperStr s) (afterRegisterUser u t) = true := by
    unfold tokenMatches
    rw [hup, hstore]
    exact decide_eq_true rfl
  have hfind : confirmUser [afterRegisterUser u t] (toUpperStr s) =
      some (afterRegisterUser u t) := by
    unfold confirmUser
    simp [List.find?, hmatch]
  have hpid : aget (afterRegisterUser u t) cfg.primaryID = some (.vstr k) := by
    unfold afterRegisterUser
    rw [aget_aset_ne _ _ _ _ (Ne.symm h3)]
    exact h2
  refine ⟨hstore, hup, hfind, ?_⟩
  rw [confirmHandler_found cfg ⟨[afterRegisterUser u t], sess⟩ s
    (afterRegisterUser u t) k hs hfind hpid h3 h4]

/-- Closed witness for C6: the mixed-case variant of a mixed-case token
redeems the account the hook stored. -/
theorem C6_witness :
    CaseVariant "AbC" "aBc" ∧
    (aget (afterRegisterUser [("id", Val.vstr "u1")] "aBc") StoreConfirmToken =
       some (.vstr (toUpperStr "aBc")) ∧
     toUpperStr "AbC" = toUpperStr "aBc" ∧
     confirmUser [afterRegisterUser [("id", Val.vstr "u1")] "aBc"]
         (toUpperStr "AbC") =
       some (afterRegisterUser [("id", Val.vstr "u1")] "aBc") ∧
     (confirmHandler
        { primaryID := "id", registerOKPath := "/regok",
          allowInsecureLoginAfterConfirm := true }
        ⟨[afterRegisterUser [("id", Val.vstr "u1")] "aBc"], []⟩ "AbC").1 =
       .redirectOK "/regok" confirmOKMsg) :=
  ⟨by decide,
   C6_case_roundtrip
     { primaryID := "id", registerOKPath := "/regok",
       allowInsecureLoginAfterConfirm := true }
     [] [("id", Val.vstr "u1")] "aBc" "AbC" "u1"
     (by decide) (by decide) (by decide) (by decide) (by decide)⟩

theorem letterBytesList_range :
    ∀ c ∈ letterBytesList,
      ('a' ≤ c ∧ c ≤ 'z') ∨ ('A' ≤ c ∧ c ≤ 'Z') ∨ ('0' ≤ c ∧ c ≤ '9') := by
  decide

theorem randLoopFuel_spec (stream : Nat → Nat) :
    ∀ (fuel k need cache remain : Nat) (acc out : List Char),
      randLoopFuel stream fuel k need cache remain acc = some out →
      out.length = need + acc.length ∧
        ∀ c ∈ out, c ∈ letterBytesList ∨ c ∈ acc := by
  intro fuel
  induction fuel with
  | zero =>
    intro k need cache remain acc out h
    simp [randLoopFuel] at h
  | succ fuel ih =>
    intro k need cache remain acc out h
    rw [randLoopFuel] at h
    by_cases hneed : need = 0
    · rw [if_pos hneed] at h
      have hacc : acc = out := Option.some.inj h
      subst hacc
      refine ⟨by rw [hneed, Nat.zero_add], fun c hc => Or.inr hc⟩
    · rw [if_neg hneed] at h
      by_cases hrem : remain = 0
      · rw [if_pos hrem] at h
        exact ih _ _ _ _ _ _ h
      · rw [if_neg hrem] at h
        by_cases hidx : cache &&& letterIdxMask < letterBytesList.length
        · rw [dif_pos hidx] at h
          obtain ⟨hlen, hmem⟩ := ih _ _ _ _ _ _ h
          constructor
          · rw [hlen, List.length_cons]
            omega
          · intro c hc
            rcases hmem c hc with h1 | h2
            · exact Or.inl h1
            · rcases List.mem_cons.mp h2 with h3 | h4
              · rw [h3]
                exact Or.inl (List.get_mem _ _ _)
              · exact Or.inr h4
        · rw [dif_neg hidx] at h
          exact ih _ _ _ _ _ _ h

/-- C5: whenever the token generator completes, it returns a string of
exactly `n` characters (every buffer position filled exactly once), all of
which belong to the generator's alphabet and in particular to
`[a-zA-Z0-9]`. -/
theorem C5_length_alphabet (stream : Nat → Nat) (fuel n : Nat) (s : String)
    (h : RandStringBytesMaskImpr stream fuel n = some s) :
    s.length = n ∧
    ∀ c ∈ s.data, c ∈ letterBytesList ∧
      (('a' ≤ c ∧ c ≤ 'z') ∨ ('A' ≤ c ∧ c ≤ 'Z') ∨ ('0' ≤ c ∧ c ≤ '9')) := by
  unfold RandStringBytesMaskImpr at h
  cases hl : randLoopFuel stream fuel 1 n (stream 0 % 2 ^ 63) letterIdxMax [] with
  | none =>
    rw [hl] at h
    simp at h
  | some out =>
    rw [hl] at h
    simp only [Option.map_some'] at h
    obtain ⟨hlen, hmem⟩ := randLoopFuel_spec stream fuel 1 n _ letterIdxMax [] out hl
    have hs : s = String.mk out := (Option.some.inj h).symm
    subst hs
    constructor
    · rw [string_length_data]
      simpa using hlen
    · intro c hc
      have hcl : c ∈ letterBytesList := by
        rcases hmem c hc with h1 | h2
        · exact h1
        · cases h2
      exact ⟨hcl, letterBytesList_range c hcl⟩

/-- Closed witness for C5 on the all-zero random stream. -/
theorem C5_witness :
    RandStringBytesMaskImpr (fun _ => 0) 20 6 = some "aaaaaa" ∧
    (("aaaaaa" : String).length = 6 ∧
     ∀ c ∈ ("aaaaaa" : String).data, c ∈ letterBytesList ∧
       (('a' ≤ c ∧ c ≤ 'z') ∨ ('A' ≤ c ∧ c ≤ 'Z') ∨ ('0' ≤ c ∧ c ≤ '9'))) :=
  ⟨by decide, C5_length_alphabet (fun _ => 0) 20 6 "aaaaaa" (by decide)⟩

/-- C1 counterexample: the 6-bit value 55 is rejected by the generator's
acceptance test although it is neither 62 nor 63, and the alphabet does not
have 62 characters. -/
theorem C1_counterexample :
    acceptedIdx 55 = false ∧ (55 : Nat) ≠ 62 ∧ (55 : Nat) ≠ 63 ∧
      letterBytesList.length ≠ 62 := by
  decide

/-- C1 as amended: a 6-bit value is accepted precisely when it is below 52,
i.e. rejected exactly for the values 52..63, and every accepted value
selects a distinct character of the 52-character alphabet `[a-zA-Z]` (the
source alphabet contains no digits). -/
theorem C1_rejection_range :
    letterBytesList.length = 52 ∧
    (∀ idx : Fin 64, acceptedIdx idx.val = true ↔ idx.val < 52) ∧
    letterBytesList.Nodup ∧
    letterBytesList.all
      (fun c => decide (('a' ≤ c ∧ c ≤ 'z') ∨ ('A' ≤ c ∧ c ≤ 'Z'))) = true := by
  decide
